import Mathlib

/-!
# SuperProxy SOCKS5 core — shallow embedding

A shallow embedding of the SOCKS5 connection handler of `proxy.go`:
the greeting/auth negotiation, the CONNECT request parser, the reply
serializer `sendReply`, the dial-error → reply-status mapping, and the
relay engine (`relay` / `copyAndClose`) with its pooled-buffer lifecycle.

Bytes are modelled as `Nat` (values < 256 on real wires; the code never
relies on values above 255 except where noted).  The client byte stream is
a finite `List Nat`; `io.ReadFull` on it succeeds exactly when enough bytes
remain.  The outbound dial is an oracle `Dest → Nat → DialResult`.
Write calls to the client may fail; the failure of the k-th write is given
by an oracle `wfail : Nat → Bool`, consulted only where the Go code checks
the write error (the method-selection accept write).
-/

namespace SuperProxy

/-- `io.ReadFull(client, buf[:n])` on a finite stream: returns the `n` bytes
read and the remaining stream, or `none` on a short read. -/
def readFull (s : List Nat) (n : Nat) : Option (List Nat × List Nat) :=
  if n ≤ s.length then some (s.take n, s.drop n) else none

/-! ## net.IP model

A `net.IP` is a byte slice of length 4 or 16.  `To4` returns a 4-byte form
for a 4-byte address or a 16-byte IPv4-mapped address (prefix
`0..0 0xff 0xff`), else `nil`.  `To16` widens a 4-byte address. -/

/-- The 12-byte prefix of an IPv4-mapped IPv6 address (`net.v4MappedLead`). -/
def v4MappedLead : List Nat := [0, 0, 0, 0, 0, 0, 0, 0, 0, 0, 255, 255]

/-- `net.IP.To4`: 4-byte form of an IPv4 or IPv4-mapped address, else `none`. -/
def ipTo4 (ip : List Nat) : Option (List Nat) :=
  if ip.length = 4 then some ip
  else if ip.length = 16 ∧ ip.take 12 = v4MappedLead then some (ip.drop 12)
  else none

/-- `net.IP.To16`: 16-byte form of the address (`[]` for invalid lengths). -/
def ipTo16 (ip : List Nat) : List Nat :=
  if ip.length = 16 then ip
  else if ip.length = 4 then v4MappedLead ++ ip
  else []

/-- `binary.BigEndian.PutUint16`: two big-endian bytes of a 16-bit value. -/
def putUint16 (v : Nat) : List Nat := [v / 256 % 256, v % 256]

/-- `sendReply(conn, rep, bindIP, bindPort)`: the bytes written to the
client.  `VER | REP | RSV | ATYP | BND.ADDR | BND.PORT`.  With a nil
`bindIP` the address bytes stay at their zero initialization (ATYP 1,
`0.0.0.0`); with an IPv4-shaped address (`To4 ≠ nil`) the 4-byte form is
used with ATYP 1; otherwise the 16-byte form with ATYP 4 (`copy` into
`buf[4:20]` leaves zeros past a short `To16`). -/
def sendReply (rep : Nat) (bindIP : Option (List Nat)) (bindPort : Nat) :
    List Nat :=
  let hdr := [5, rep, 0]
  match bindIP with
  | none => hdr ++ [1, 0, 0, 0, 0] ++ putUint16 bindPort
  | some ip =>
    match ipTo4 ip with
    | some v4 => hdr ++ [1] ++ (v4 ++ List.replicate 4 0).take 4 ++ putUint16 bindPort
    | none => hdr ++ [4] ++ (ipTo16 ip ++ List.replicate 16 0).take 16 ++ putUint16 bindPort

/-! ## Request parsing -/

/-- Parsed destination of a CONNECT request (`destAddr` in the code):
raw 4-byte address, length-prefixed name, or raw 16-byte address. -/
inductive Dest where
  | ipv4 (addr : List Nat)
  | name (domain : List Nat)
  | ipv6 (addr : List Nat)
deriving DecidableEq, Repr

/-- Error classes distinguished by the dial-failure mapping
(`errors.Is` against `syscall.ECONNREFUSED` / `ENETUNREACH` /
`EHOSTUNREACH`); `other` is every remaining error, including name
resolution failure. -/
inductive DialErr where
  | connRefused
  | netUnreach
  | hostUnreach
  | other
deriving DecidableEq, Repr

/-- Outcome of `dialer.Dial`: the bound local address/port on success,
an error class on failure. -/
inductive DialResult where
  | ok (boundIP : List Nat) (boundPort : Nat)
  | fail (e : DialErr)
deriving DecidableEq, Repr

/-- The dial-failure status mapping in `handleConnection`:
`rep := repGeneralFailure`, overridden for the three recognised
`syscall` error classes. -/
def mapDialErr : DialErr → Nat
  | .connRefused => 5
  | .netUnreach => 3
  | .hostUnreach => 4
  | .other => 1

/-- Outcome of the greeting/auth phase (lines 91–129 of `proxy.go`). -/
inductive GreetResult where
  | silent
  | reject
  | proceed (rest : List Nat)
deriving DecidableEq, Repr

/-- Greeting/auth negotiation: read `VER | NMETHODS`, silently drop on a
short read, a version ≠ 5, or a method count of 0 (or > 255, impossible
for a byte); read the method list; `reject` when no-auth (0) is absent,
else `proceed` with the unread remainder of the stream. -/
def parseGreeting (s : List Nat) : GreetResult :=
  match readFull s 2 with
  | none => .silent
  | some (hdr, rest) =>
    if hdr.getD 0 0 ≠ 5 then .silent
    else
      let nmethods := hdr.getD 1 0
      if nmethods = 0 ∨ nmethods > 255 then .silent
      else
        match readFull rest nmethods with
        | none => .silent
        | some (methods, rest2) =>
          if methods.contains 0 then .proceed rest2 else .reject

/-- Outcome of the request phase (lines 133–197 of `proxy.go`):
silent drop, an error reply with the given status, or a parsed
destination and port to dial. -/
inductive ReqResult where
  | silent
  | reply (status : Nat)
  | connect (dest : Dest) (port : Nat)
deriving DecidableEq, Repr

/-- CONNECT request parsing: read `VER | CMD | RSV | ATYP`; silent drop on
short read or version ≠ 5; status 7 for a command ≠ 1; destination by
address type — 1: 4 raw bytes, 3: length byte (0 → status 1) then that
many name bytes, 4: 16 raw bytes, other: status 8; then the 2-byte
big-endian port. -/
def parseRequest (s : List Nat) : ReqResult :=
  match readFull s 4 with
  | none => .silent
  | some (reqHdr, rest) =>
    if reqHdr.getD 0 0 ≠ 5 then .silent
    else if reqHdr.getD 1 0 ≠ 1 then .reply 7
    else
      let atyp := reqHdr.getD 3 0
      let parsed : Option (Dest × List Nat) ⊕ ReqResult :=
        if atyp = 1 then
          match readFull rest 4 with
          | none => .inr .silent
          | some (addr, rest2) => .inl (some (.ipv4 addr, rest2))
        else if atyp = 3 then
          match readFull rest 1 with
          | none => .inr .silent
          | some (lenB, rest2) =>
            let len := lenB.getD 0 0
            if len = 0 then .inr (.reply 1)
            else
              match readFull rest2 len with
              | none => .inr .silent
              | some (domain, rest3) => .inl (some (.name domain, rest3))
        else if atyp = 4 then
          match readFull rest 16 with
          | none => .inr .silent
          | some (addr, rest2) => .inl (some (.ipv6 addr, rest2))
        else .inr (.reply 8)
      match parsed with
      | .inr r => r
      | .inl none => .silent
      | .inl (some (dest, rest2)) =>
        match readFull rest2 2 with
        | none => .silent
        | some (portB, _) =>
          .connect dest (portB.getD 0 0 * 256 + portB.getD 1 0)

/-! ## The per-connection session -/

/-- One `sendReply` call: status, bound IP (`none` for the nil IP) and
bound port as passed. -/
structure Reply where
  rep : Nat
  bindIP : Option (List Nat)
  bindPort : Nat
deriving DecidableEq, Repr

/-- The bytes a `Reply` puts on the wire. -/
def Reply.wire (r : Reply) : List Nat := sendReply r.rep r.bindIP r.bindPort

/-- Observable outcome of `handleConnection`: the method-selection write
(if any), the `sendReply` calls in order, the dialed destination (if the
dial was attempted), and whether the relay phase was entered. -/
structure SessionResult where
  authWrite : Option (List Nat)
  replies : List Reply
  dialed : Option (Dest × Nat)
  relayEntered : Bool
deriving DecidableEq, Repr

/-- `handleConnection(client, outboundIP, port)` over an input stream, a
write-failure oracle (`wfail k` = the k-th write to the client fails;
only the checked accept write, write 0 on the proceed path, is consulted)
and a dial oracle.  Mirrors lines 85–229 of `proxy.go`. -/
def handleConnection (input : List Nat) (wfail : Nat → Bool)
    (dial : Dest → Nat → DialResult) : SessionResult :=
  match parseGreeting input with
  | .silent => ⟨none, [], none, false⟩
  | .reject => ⟨some [5, 0xFF], [], none, false⟩
  | .proceed rest =>
    if wfail 0 then ⟨some [5, 0], [], none, false⟩
    else
      match parseRequest rest with
      | .silent => ⟨some [5, 0], [], none, false⟩
      | .reply st => ⟨some [5, 0], [⟨st, none, 0⟩], none, false⟩
      | .connect dest port =>
        match dial dest port with
        | .fail e =>
          ⟨some [5, 0], [⟨mapDialErr e, none, 0⟩], some (dest, port), false⟩
        | .ok boundIP boundPort =>
          ⟨some [5, 0], [⟨0, some boundIP, boundPort % 65536⟩],
            some (dest, port), true⟩

/-! ## Relay engine and buffer pool

`relay` runs `copyAndClose(remote, client)` and `copyAndClose(client,
remote)` as two goroutines and `wg.Wait()`s for both.  We model each
direction as the sequence of observable events it performs and `relay` as
the set of interleavings of the two directions followed by the return of
`wg.Wait`. -/

/-- The two sockets of a session's relay phase. -/
inductive Sock where
  | client
  | remote
deriving DecidableEq, Repr

/-- Observable events of one `copyAndClose(dst, src)` call: buffer pool
acquire (`bufPool.Get`) and release (`bufPool.Put`, deferred), the copy
loop finishing (with or without an I/O error), and the half-closes. -/
inductive CopyEvent where
  | acquire
  | copyDone (ioErr : Bool)
  | closeWrite (s : Sock)
  | closeRead (s : Sock)
  | release
deriving DecidableEq, Repr

/-- `copyAndClose(dst, src)`: get a pooled buffer, defer its release,
`io.CopyBuffer` (its error is discarded; `ioErr` records whether it
failed), then `dst.CloseWrite()` and `src.CloseRead()` when the sockets
are TCP; the deferred `bufPool.Put` runs last on every path. -/
def copyAndClose (dst src : Sock) (dstTCP srcTCP : Bool) (ioErr : Bool) :
    List CopyEvent :=
  [CopyEvent.acquire, CopyEvent.copyDone ioErr]
    ++ (if dstTCP then [CopyEvent.closeWrite dst] else [])
    ++ (if srcTCP then [CopyEvent.closeRead src] else [])
    ++ [CopyEvent.release]

/-- Relay-phase events: an event of the client→remote direction, an event
of the remote→client direction, or the return of `relay` (`wg.Wait`
passing). -/
inductive REvent where
  | c2r (e : CopyEvent)
  | r2c (e : CopyEvent)
  | ret
deriving DecidableEq, Repr

/-- The client→remote goroutine: `copyAndClose(remote, client)`. -/
def c2rTrace (clientTCP remoteTCP : Bool) (ioErr : Bool) : List REvent :=
  (copyAndClose .remote .client remoteTCP clientTCP ioErr).map REvent.c2r

/-- The remote→client goroutine: `copyAndClose(client, remote)`. -/
def r2cTrace (clientTCP remoteTCP : Bool) (ioErr : Bool) : List REvent :=
  (copyAndClose .client .remote clientTCP remoteTCP ioErr).map REvent.r2c

/-- `Interleave xs ys zs`: `zs` is an interleaving of `xs` and `ys`
(each kept in order). -/
inductive Interleave : List REvent → List REvent → List REvent → Prop where
  | nil : Interleave [] [] []
  | left {x xs ys zs} : Interleave xs ys zs → Interleave (x :: xs) ys (x :: zs)
  | right {y xs ys zs} : Interleave xs ys zs → Interleave xs (y :: ys) (y :: zs)

/-- Whether a relay event belongs to the client→remote direction. -/
def REvent.isC2R : REvent → Bool
  | .c2r _ => true
  | _ => false

/-- Whether a relay event belongs to the remote→client direction. -/
def REvent.isR2C : REvent → Bool
  | .r2c _ => true
  | _ => false

/-- A possible execution of `relay(client, remote)`: any interleaving of
the two directions' complete traces, then the return of `wg.Wait`. -/
def RelayRun (clientTCP remoteTCP : Bool) (ioErr1 ioErr2 : Bool)
    (t : List REvent) : Prop :=
  ∃ z, Interleave (c2rTrace clientTCP remoteTCP ioErr1)
      (r2cTrace clientTCP remoteTCP ioErr2) z ∧ t = z ++ [REvent.ret]

end SuperProxy

namespace SuperProxy

theorem ipTo4_some_length {ip v4 : List Nat} (h : ipTo4 ip = some v4) :
    v4.length = 4 := by
  unfold ipTo4 at h
  split at h
  · next h4 => injection h with h; subst h; exact h4
  · split at h
    · next hb => injection h with h; subst h; simp [hb.1]
    · exact absurd h (by simp)

/-- C2: every reply has wire shape `5 | STATUS | 0 | ATYP | BND.ADDR |
BND.PORT` with a 4-byte address and ATYP 1 when the bound address is
IPv4-shaped (`To4` succeeds) and a 16-byte address with ATYP 4 otherwise;
every failure reply of a session is sent with the nil bind address and
port 0 and serializes to the 10-byte message
`5 | STATUS | 0 | 1 | 0.0.0.0 | 0`. -/
theorem reply_wire_shape (rep p : Nat) (ip v4 : List Nat)
    (input : List Nat) (wfail : Nat → Bool) (dial : Dest → Nat → DialResult) :
    (sendReply rep none p = [5, rep, 0, 1, 0, 0, 0, 0] ++ putUint16 p) ∧
    (sendReply rep none 0 = [5, rep, 0, 1, 0, 0, 0, 0, 0, 0]) ∧
    (ipTo4 ip = some v4 →
      sendReply rep (some ip) p = [5, rep, 0, 1] ++ v4 ++ putUint16 p ∧
      (sendReply rep (some ip) p).length = 10) ∧
    (ipTo4 ip = none → ip.length = 16 →
      sendReply rep (some ip) p = [5, rep, 0, 4] ++ ip ++ putUint16 p ∧
      (sendReply rep (some ip) p).length = 22) ∧
    (∀ r ∈ (handleConnection input wfail dial).replies, r.rep ≠ 0 →
      r.bindIP = none ∧ r.bindPort = 0 ∧
      r.wire = [5, r.rep, 0, 1, 0, 0, 0, 0, 0, 0]) := by
  refine ⟨rfl, rfl, ?_, ?_, ?_⟩
  · intro h4
    have hl := ipTo4_some_length h4
    have ht : (v4 ++ ([0, 0, 0, 0] : List Nat)).take 4 = v4 := by
      rw [List.take_append_of_le_length (by omega), List.take_of_length_le (by omega)]
    constructor
    · simp [sendReply, h4, ht]
    · simp [sendReply, h4, ht, putUint16, hl]
  · intro h4 h16
    have h6 : ipTo16 ip = ip := by simp [ipTo16, h16]
    have ht : (ipTo16 ip ++
        ([0, 0, 0, 0, 0, 0, 0, 0, 0, 0, 0, 0, 0, 0, 0, 0] : List Nat)).take 16 = ip := by
      rw [h6, List.take_append_of_le_length (by omega), List.take_of_length_le (by omega)]
    constructor
    · simp [sendReply, h4, ht]
    · simp [sendReply, h4, ht, putUint16, h16]
  · intro r hr hrep
    unfold handleConnection at hr
    rcases hg : parseGreeting input with _ | _ | rest <;> simp [hg] at hr
    by_cases hw : wfail 0 = true <;> simp [hw] at hr
    rcases hq : parseRequest rest with _ | st | ⟨dest, port⟩ <;> simp [hq] at hr
    · subst hr
      exact ⟨rfl, rfl, by simp [Reply.wire, sendReply, putUint16]⟩
    · rcases hd : dial dest port with ⟨bip, bport⟩ | e2 <;> simp [hd] at hr
      · subst hr; exact absurd rfl hrep
      · subst hr
        exact ⟨rfl, rfl, by simp [Reply.wire, sendReply, putUint16]⟩

theorem reply_wire_shape_witness :
    (sendReply 5 none 0 = [5, 5, 0, 1, 0, 0, 0, 0] ++ putUint16 0) ∧
    (sendReply 5 none 0 = [5, 5, 0, 1, 0, 0, 0, 0, 0, 0]) ∧
    (sendReply 0 (some [10, 0, 0, 7]) 8080 =
        [5, 0, 0, 1] ++ [10, 0, 0, 7] ++ putUint16 8080 ∧
      (sendReply 0 (some [10, 0, 0, 7]) 8080).length = 10) ∧
    (sendReply 0 (some [32, 1, 13, 184, 0, 0, 0, 0, 0, 0, 0, 0, 0, 0, 0, 2]) 443 =
        [5, 0, 0, 4] ++ [32, 1, 13, 184, 0, 0, 0, 0, 0, 0, 0, 0, 0, 0, 0, 2] ++
          putUint16 443 ∧
      (sendReply 0 (some [32, 1, 13, 184, 0, 0, 0, 0, 0, 0, 0, 0, 0, 0, 0, 2]) 443).length
        = 22) ∧
    ((⟨1, none, 0⟩ : Reply).bindIP = none ∧ (⟨1, none, 0⟩ : Reply).bindPort = 0 ∧
      Reply.wire ⟨1, none, 0⟩ = [5, 1, 0, 1, 0, 0, 0, 0, 0, 0]) :=
  ⟨(reply_wire_shape 5 0 [] [] [] (fun _ => false) (fun _ _ => .fail .other)).1,
   (reply_wire_shape 5 0 [] [] [] (fun _ => false) (fun _ _ => .fail .other)).2.1,
   (reply_wire_shape 0 8080 [10, 0, 0, 7] [10, 0, 0, 7] []
     (fun _ => false) (fun _ _ => .fail .other)).2.2.1 (by decide),
   (reply_wire_shape 0 443 [32, 1, 13, 184, 0, 0, 0, 0, 0, 0, 0, 0, 0, 0, 0, 2] []
     [] (fun _ => false) (fun _ _ => .fail .other)).2.2.2.1 (by decide) (by decide),
   (reply_wire_shape 5 0 [] [] [5, 1, 0, 5, 1, 0, 1, 1, 2, 3, 4, 0, 80]
     (fun _ => false) (fun _ _ => .fail .other)).2.2.2.2
     ⟨1, none, 0⟩ (by decide) (by decide)⟩

/-- C1: when the dial fails, the session sends exactly one reply whose
status is determined by the error class — connection-refused → 5,
network-unreachable → 3, host-unreachable → 4, anything else (including
name resolution failure) → 1 — and never enters relay; the reply is part
of the session output, i.e. written before the connection is closed. -/
theorem dial_failure_reply_mapping (input : List Nat) (wfail : Nat → Bool)
    (dial : Dest → Nat → DialResult) (d : Dest) (p : Nat) (e : DialErr)
    (hdial : (handleConnection input wfail dial).dialed = some (d, p))
    (hfail : dial d p = .fail e) :
    (handleConnection input wfail dial).replies = [⟨mapDialErr e, none, 0⟩] ∧
    (handleConnection input wfail dial).relayEntered = false ∧
    (e = .connRefused → mapDialErr e = 5) ∧
    (e = .netUnreach → mapDialErr e = 3) ∧
    (e = .hostUnreach → mapDialErr e = 4) ∧
    (e = .other → mapDialErr e = 1) := by
  have key : (handleConnection input wfail dial).replies =
      [⟨mapDialErr e, none, 0⟩] ∧
      (handleConnection input wfail dial).relayEntered = false := by
    unfold handleConnection at hdial ⊢
    rcases hg : parseGreeting input with _ | _ | rest <;> simp [hg] at hdial ⊢
    by_cases hw : wfail 0 = true <;> simp [hw] at hdial ⊢
    rcases hq : parseRequest rest with _ | st | ⟨dest, port⟩ <;> simp [hq] at hdial ⊢
    rcases hd : dial dest port with ⟨bip, bport⟩ | e2 <;> simp [hd] at hdial ⊢
    · obtain ⟨h1, h2⟩ := hdial
      subst h1; subst h2
      rw [hfail] at hd
      exact absurd hd (by simp)
    · obtain ⟨h1, h2⟩ := hdial
      subst h1; subst h2
      rw [hfail] at hd
      injection hd with hd
      subst hd
      simp
  exact ⟨key.1, key.2, fun h => by subst h; rfl, fun h => by subst h; rfl,
    fun h => by subst h; rfl, fun h => by subst h; rfl⟩

theorem dial_failure_reply_mapping_witness :
    (handleConnection [5, 1, 0, 5, 1, 0, 1, 1, 2, 3, 4, 0, 80]
        (fun _ => false) (fun _ _ => .fail .connRefused)).replies =
      [⟨mapDialErr .connRefused, none, 0⟩] ∧
    (handleConnection [5, 1, 0, 5, 1, 0, 1, 1, 2, 3, 4, 0, 80]
        (fun _ => false) (fun _ _ => .fail .connRefused)).relayEntered = false ∧
    mapDialErr .connRefused = 5 :=
  have h := dial_failure_reply_mapping [5, 1, 0, 5, 1, 0, 1, 1, 2, 3, 4, 0, 80]
    (fun _ => false) (fun _ _ => .fail .connRefused)
    (.ipv4 [1, 2, 3, 4]) 80 .connRefused (by decide) rfl
  ⟨h.1, h.2.1, h.2.2.1 rfl⟩

end SuperProxy

namespace SuperProxy

/-- C4: a request whose command byte is not 1 (CONNECT) yields reply
status 7 (command not supported); the session then closes with exactly
that reply, no dial attempted and no relay entered. -/
theorem non_connect_command_rejected (cmd rsv atyp : Nat) (tail input : List Nat)
    (wfail : Nat → Bool) (dial : Dest → Nat → DialResult)
    (hcmd : cmd ≠ 1) :
    parseRequest (5 :: cmd :: rsv :: atyp :: tail) = .reply 7 ∧
    (parseGreeting input = .proceed (5 :: cmd :: rsv :: atyp :: tail) →
      wfail 0 = false →
      handleConnection input wfail dial =
        ⟨some [5, 0], [⟨7, none, 0⟩], none, false⟩) := by
  have h1 : parseRequest (5 :: cmd :: rsv :: atyp :: tail) = .reply 7 := by
    unfold parseRequest readFull
    simp [hcmd]
  exact ⟨h1, fun hg hw => by simp [handleConnection, hg, hw, h1]⟩

theorem non_connect_command_rejected_witness :
    parseRequest (5 :: 2 :: 0 :: 1 :: [1, 2, 3, 4, 0, 80]) = .reply 7 ∧
    handleConnection [5, 1, 0, 5, 2, 0, 1, 1, 2, 3, 4, 0, 80]
        (fun _ => false) (fun _ _ => .ok [9, 9, 9, 9] 55) =
      ⟨some [5, 0], [⟨7, none, 0⟩], none, false⟩ :=
  have h := non_connect_command_rejected 2 0 1 [1, 2, 3, 4, 0, 80]
    [5, 1, 0, 5, 2, 0, 1, 1, 2, 3, 4, 0, 80]
    (fun _ => false) (fun _ _ => .ok [9, 9, 9, 9] 55) (by decide)
  ⟨h.1, h.2 (by decide) rfl⟩

/-- C7: a session that enters the relay phase has sent only replies with
status 0; consequently, once a non-success reply is sent, the relay phase
is never reached. -/
theorem no_relay_after_failure_reply (input : List Nat) (wfail : Nat → Bool)
    (dial : Dest → Nat → DialResult)
    (hrelay : (handleConnection input wfail dial).relayEntered = true) :
    ((handleConnection input wfail dial).replies.all
      (fun r => r.rep == 0)) = true := by
  unfold handleConnection at hrelay ⊢
  rcases hg : parseGreeting input with _ | _ | rest <;> simp [hg] at hrelay ⊢
  by_cases hw : wfail 0 = true <;> simp [hw] at hrelay ⊢
  rcases hq : parseRequest rest with _ | st | ⟨dest, port⟩ <;> simp [hq] at hrelay ⊢
  rcases hd : dial dest port with ⟨bip, bport⟩ | e <;> simp [hd] at hrelay ⊢

theorem no_relay_after_failure_reply_witness :
    ((handleConnection [5, 1, 0, 5, 1, 0, 1, 1, 2, 3, 4, 0, 80]
      (fun _ => false) (fun _ _ => .ok [9, 9, 9, 9] 55)).replies.all
      (fun r => r.rep == 0)) = true :=
  no_relay_after_failure_reply [5, 1, 0, 5, 1, 0, 1, 1, 2, 3, 4, 0, 80]
    (fun _ => false) (fun _ _ => .ok [9, 9, 9, 9] 55) (by decide)

/-- C10: after a successful dial the session sends the success reply and
enters relay unconditionally; the result of writing the success reply is
never consulted — any two write-failure oracles that agree on the one
checked write (the auth accept) give the identical session outcome, so the
session relays even if the success-reply bytes were never delivered. -/
theorem success_reply_write_error_ignored (input rest : List Nat)
    (wfail wfail2 : Nat → Bool) (dial : Dest → Nat → DialResult)
    (dest : Dest) (port : Nat) (bip : List Nat) (bport : Nat)
    (hg : parseGreeting input = .proceed rest)
    (hw : wfail 0 = false)
    (hq : parseRequest rest = .connect dest port)
    (hok : dial dest port = .ok bip bport) :
    (handleConnection input wfail dial).relayEntered = true ∧
    (handleConnection input wfail dial).replies =
      [⟨0, some bip, bport % 65536⟩] ∧
    (wfail2 0 = false →
      handleConnection input wfail2 dial = handleConnection input wfail dial) := by
  refine ⟨?_, ?_, ?_⟩
  · simp [handleConnection, hg, hw, hq, hok]
  · simp [handleConnection, hg, hw, hq, hok]
  · intro hw2
    simp [handleConnection, hg, hw, hw2, hq, hok]

theorem success_reply_write_error_ignored_witness :
    (handleConnection [5, 1, 0, 5, 1, 0, 1, 1, 2, 3, 4, 0, 80]
      (fun _ => false) (fun _ _ => .ok [9, 9, 9, 9] 55)).relayEntered = true ∧
    (handleConnection [5, 1, 0, 5, 1, 0, 1, 1, 2, 3, 4, 0, 80]
      (fun _ => false) (fun _ _ => .ok [9, 9, 9, 9] 55)).replies =
      [⟨0, some [9, 9, 9, 9], 55 % 65536⟩] ∧
    handleConnection [5, 1, 0, 5, 1, 0, 1, 1, 2, 3, 4, 0, 80]
        (fun k => if k = 0 then false else true) (fun _ _ => .ok [9, 9, 9, 9] 55) =
      handleConnection [5, 1, 0, 5, 1, 0, 1, 1, 2, 3, 4, 0, 80]
        (fun _ => false) (fun _ _ => .ok [9, 9, 9, 9] 55) :=
  have h := success_reply_write_error_ignored [5, 1, 0, 5, 1, 0, 1, 1, 2, 3, 4, 0, 80]
    [5, 1, 0, 1, 1, 2, 3, 4, 0, 80] (fun _ => false)
    (fun k => if k = 0 then false else true) (fun _ _ => .ok [9, 9, 9, 9] 55)
    (.ipv4 [1, 2, 3, 4]) 80 [9, 9, 9, 9] 55 (by decide) rfl (by decide) rfl
  ⟨h.1, h.2.1, h.2.2 rfl⟩

end SuperProxy

namespace SuperProxy

theorem readFull_exact (xs ys : List Nat) :
    readFull (xs ++ ys) xs.length = some (xs, ys) := by
  unfold readFull
  rw [if_pos (by simp)]
  rw [List.take_left, List.drop_left]

theorem readFull_one (a : Nat) (t : List Nat) :
    readFull (a :: t) 1 = some ([a], t) := by
  unfold readFull
  rw [if_pos (by simp only [List.length_cons]; omega)]
  rfl

theorem readFull_two (a b : Nat) (t : List Nat) :
    readFull (a :: b :: t) 2 = some ([a, b], t) := by
  unfold readFull
  rw [if_pos (by simp only [List.length_cons]; omega)]
  rfl

theorem readFull_four (a b c d : Nat) (t : List Nat) :
    readFull (a :: b :: c :: d :: t) 4 = some ([a, b, c, d], t) := by
  unfold readFull
  rw [if_pos (by simp only [List.length_cons]; omega)]
  rfl

theorem parseGreeting_cons (n : Nat) (methods rest : List Nat)
    (hlen : methods.length = n) (h0 : n ≠ 0) (h255 : ¬ n > 255) :
    parseGreeting (5 :: n :: (methods ++ rest)) =
      (if methods.contains 0 then .proceed rest else .reject) := by
  subst hlen
  unfold parseGreeting
  rw [readFull_two]
  simp [h0, h255, readFull_exact]

/-- C3: for a well-formed greeting (version 5, N ≥ 1 method bytes present):
when the method list contains 0x00 the server writes `{5, 0}` and advances
to the request phase (the remaining stream is handed to the request
parser); when it does not, the session ends as `{5, 0xFF}` with no reply,
no dial and no relay — no further bytes are processed. -/
theorem greeting_noauth_selection (n : Nat) (methods rest : List Nat)
    (wfail : Nat → Bool) (dial : Dest → Nat → DialResult)
    (hlen : methods.length = n) (h1 : 1 ≤ n) (h255 : n ≤ 255) :
    (methods.contains 0 = true →
      parseGreeting (5 :: n :: (methods ++ rest)) = .proceed rest ∧
      (wfail 0 = false →
        (handleConnection (5 :: n :: (methods ++ rest)) wfail dial).authWrite =
          some [5, 0])) ∧
    (methods.contains 0 = false →
      handleConnection (5 :: n :: (methods ++ rest)) wfail dial =
        ⟨some [5, 255], [], none, false⟩) := by
  have hg := parseGreeting_cons n methods rest hlen (by omega) (by omega)
  constructor
  · intro hc
    simp only [hc, if_true] at hg
    refine ⟨hg, fun hw => ?_⟩
    unfold handleConnection
    rw [hg]
    simp only [hw]
    rcases hq : parseRequest rest with _ | st | ⟨d, p⟩ <;> simp [hq]
    rcases hd : dial d p with ⟨bip, bp⟩ | e <;> simp [hd]
  · intro hc
    simp only [hc, Bool.false_eq_true, if_false] at hg
    unfold handleConnection
    rw [hg]

theorem greeting_noauth_selection_witness :
    (parseGreeting (5 :: 3 :: ([2, 0, 1] ++ [5, 1, 0, 9])) = .proceed [5, 1, 0, 9] ∧
      ((handleConnection (5 :: 3 :: ([2, 0, 1] ++ [5, 1, 0, 9]))
        (fun _ => false) (fun _ _ => .fail .other)).authWrite = some [5, 0])) ∧
    handleConnection (5 :: 2 :: ([2, 1] ++ [9]))
        (fun _ => false) (fun _ _ => .fail .other) =
      ⟨some [5, 255], [], none, false⟩ :=
  have ha := greeting_noauth_selection 3 [2, 0, 1] [5, 1, 0, 9]
    (fun _ => false) (fun _ _ => .fail .other) rfl (by decide) (by decide)
  have hb := greeting_noauth_selection 2 [2, 1] [9]
    (fun _ => false) (fun _ _ => .fail .other) rfl (by decide) (by decide)
  ⟨⟨(ha.1 (by decide)).1, (ha.1 (by decide)).2 rfl⟩, hb.2 (by decide)⟩

end SuperProxy

namespace SuperProxy

/-- C5: destination parsing is driven by the address-type byte — type 1
reads exactly 4 address bytes, type 3 reads a length byte and exactly that
many name bytes (a zero length yields reply status 1), type 4 reads
exactly 16 address bytes, and any other type yields reply status 8; after
any accepted address the destination port is the next 2 bytes read
big-endian. -/
theorem request_destination_parsing (rsv a1 a2 a3 a4 len atyp p1 p2 : Nat)
    (dom ip16 tail : List Nat) :
    (parseRequest (5 :: 1 :: rsv :: 1 :: a1 :: a2 :: a3 :: a4 :: p1 :: p2 :: tail) =
      .connect (.ipv4 [a1, a2, a3, a4]) (p1 * 256 + p2)) ∧
    (dom.length = len → len ≠ 0 →
      parseRequest (5 :: 1 :: rsv :: 3 :: len :: (dom ++ p1 :: p2 :: tail)) =
        .connect (.name dom) (p1 * 256 + p2)) ∧
    (parseRequest (5 :: 1 :: rsv :: 3 :: 0 :: tail) = .reply 1) ∧
    (ip16.length = 16 →
      parseRequest (5 :: 1 :: rsv :: 4 :: (ip16 ++ p1 :: p2 :: tail)) =
        .connect (.ipv6 ip16) (p1 * 256 + p2)) ∧
    (atyp ≠ 1 → atyp ≠ 3 → atyp ≠ 4 →
      parseRequest (5 :: 1 :: rsv :: atyp :: tail) = .reply 8) := by
  refine ⟨?_, ?_, ?_, ?_, ?_⟩
  · simp [parseRequest, readFull_four, readFull_two]
  · intro hlen h0
    subst hlen
    simp [parseRequest, readFull_four, readFull_one, readFull_exact,
      readFull_two, h0]
  · simp [parseRequest, readFull_four, readFull_one]
  · intro h16
    have hr : readFull (ip16 ++ p1 :: p2 :: tail) 16 =
        some (ip16, p1 :: p2 :: tail) := by
      rw [← h16]
      exact readFull_exact _ _
    simp [parseRequest, readFull_four, hr, readFull_two]
  · intro h1 h3 h4
    simp [parseRequest, readFull_four, h1, h3, h4]

theorem request_destination_parsing_witness :
    (parseRequest (5 :: 1 :: 0 :: 1 :: 1 :: 2 :: 3 :: 4 :: 0 :: 80 :: [7, 7]) =
      .connect (.ipv4 [1, 2, 3, 4]) (0 * 256 + 80)) ∧
    (parseRequest (5 :: 1 :: 0 :: 3 :: 2 :: ([97, 98] ++ 0 :: 80 :: [7, 7])) =
      .connect (.name [97, 98]) (0 * 256 + 80)) ∧
    (parseRequest (5 :: 1 :: 0 :: 3 :: 0 :: [7, 7]) = .reply 1) ∧
    (parseRequest (5 :: 1 :: 0 :: 4 ::
        ([32, 1, 13, 184, 0, 0, 0, 0, 0, 0, 0, 0, 0, 0, 0, 2] ++ 0 :: 80 :: [7, 7])) =
      .connect (.ipv6 [32, 1, 13, 184, 0, 0, 0, 0, 0, 0, 0, 0, 0, 0, 0, 2])
        (0 * 256 + 80)) ∧
    (parseRequest (5 :: 1 :: 0 :: 9 :: [7, 7]) = .reply 8) :=
  have h := request_destination_parsing 0 1 2 3 4 2 9 0 80 [97, 98]
    [32, 1, 13, 184, 0, 0, 0, 0, 0, 0, 0, 0, 0, 0, 0, 2] [7, 7]
  ⟨h.1, h.2.1 rfl (by decide), h.2.2.1, h.2.2.2.1 (by decide),
    h.2.2.2.2 (by decide) (by decide) (by decide)⟩

end SuperProxy

namespace SuperProxy

theorem readFull_some {s : List Nat} {n : Nat} {xs r : List Nat}
    (h : readFull s n = some (xs, r)) : xs = s.take n ∧ r = s.drop n := by
  unfold readFull at h
  split at h
  · simp only [Option.some.injEq, Prod.mk.injEq] at h
    exact ⟨h.1.symm, h.2.symm⟩
  · exact absurd h (by simp)

theorem parseGreeting_badVersion {v : Nat} (rest : List Nat) (hv : v ≠ 5) :
    parseGreeting (v :: rest) = .silent := by
  rcases rest with _ | ⟨b, t⟩
  · simp [parseGreeting, readFull]
  · unfold parseGreeting
    rw [readFull_two]
    simp [hv]

theorem parseGreeting_shortHeader {s : List Nat} (h : s.length < 2) :
    parseGreeting s = .silent := by
  unfold parseGreeting readFull
  rw [if_neg (by omega)]

theorem parseGreeting_zeroMethods (rest : List Nat) :
    parseGreeting (5 :: 0 :: rest) = .silent := by
  unfold parseGreeting
  rw [readFull_two]
  simp

theorem parseGreeting_truncatedMethods {n : Nat} {methods : List Nat}
    (h : methods.length < n) :
    parseGreeting (5 :: n :: methods) = .silent := by
  unfold parseGreeting
  rw [readFull_two]
  by_cases h0 : n = 0 ∨ n > 255
  · simp [h0]
  · have hnle : ¬ n ≤ methods.length := by omega
    simp [h0, readFull, hnle]

theorem parseRequest_badVersion {v2 : Nat} (t : List Nat) (hv : v2 ≠ 5) :
    parseRequest (v2 :: t) = .silent := by
  rcases h : readFull (v2 :: t) 4 with _ | ⟨xs, r⟩
  · simp [parseRequest, h]
  · obtain ⟨hx, _⟩ := readFull_some h
    subst hx
    simp [parseRequest, h, hv]

theorem parseRequest_shortHeader {s : List Nat} (h : s.length < 4) :
    parseRequest s = .silent := by
  unfold parseRequest readFull
  rw [if_neg (by omega)]

/-- C6: malformed input — a greeting or request version other than 5, a
zero method count, or a short read at any point of either phase — closes
the connection silently: no auth selection write and no reply in the
greeting phase, no reply in the request phase; whereas every well-formed
but invalid request (parser outcome `reply st`) gets exactly that reply
before close. -/
theorem malformed_input_silent_drop
    (v n v2 rsv len st : Nat)
    (rest restb inputc methods t2 sf ta tb tc input sj inputk sk : List Nat)
    (wfail : Nat → Bool) (dial : Dest → Nat → DialResult) :
    (v ≠ 5 →
      handleConnection (v :: rest) wfail dial = ⟨none, [], none, false⟩) ∧
    (handleConnection (5 :: 0 :: restb) wfail dial = ⟨none, [], none, false⟩) ∧
    (inputc.length < 2 →
      handleConnection inputc wfail dial = ⟨none, [], none, false⟩) ∧
    (methods.length < n →
      handleConnection (5 :: n :: methods) wfail dial = ⟨none, [], none, false⟩) ∧
    (v2 ≠ 5 → parseRequest (v2 :: t2) = .silent) ∧
    (sf.length < 4 → parseRequest sf = .silent) ∧
    (ta.length < 6 → parseRequest (5 :: 1 :: rsv :: 1 :: ta) = .silent) ∧
    (len ≠ 0 → tb.length < len + 2 →
      parseRequest (5 :: 1 :: rsv :: 3 :: len :: tb) = .silent) ∧
    (tc.length < 18 → parseRequest (5 :: 1 :: rsv :: 4 :: tc) = .silent) ∧
    (parseGreeting input = .proceed sj → wfail 0 = false →
      parseRequest sj = .silent →
      handleConnection input wfail dial = ⟨some [5, 0], [], none, false⟩) ∧
    (parseGreeting inputk = .proceed sk → wfail 0 = false →
      parseRequest sk = .reply st →
      handleConnection inputk wfail dial =
        ⟨some [5, 0], [⟨st, none, 0⟩], none, false⟩) := by
  refine ⟨?_, ?_, ?_, ?_, ?_, ?_, ?_, ?_, ?_, ?_, ?_⟩
  · intro hv
    simp [handleConnection, parseGreeting_badVersion rest hv]
  · simp [handleConnection, parseGreeting_zeroMethods restb]
  · intro hc
    simp [handleConnection, parseGreeting_shortHeader hc]
  · intro hd
    simp [handleConnection, parseGreeting_truncatedMethods hd]
  · intro hv2
    exact parseRequest_badVersion t2 hv2
  · intro hf
    exact parseRequest_shortHeader hf
  · intro hg
    unfold parseRequest
    rw [readFull_four]
    by_cases h4 : 4 ≤ ta.length
    · have h2 : ¬ 2 ≤ ta.length - 4 := by omega
      simp [readFull, h4, h2]
    · simp [readFull, h4]
  · intro h0 hh
    unfold parseRequest
    rw [readFull_four]
    by_cases hl : len ≤ tb.length
    · have h2 : ¬ 2 ≤ tb.length - len := by omega
      simp [readFull_one, h0, readFull, hl, h2]
    · simp [readFull_one, h0, readFull, hl]
  · intro hi
    unfold parseRequest
    rw [readFull_four]
    by_cases h16 : 16 ≤ tc.length
    · have h2 : ¬ 2 ≤ tc.length - 16 := by omega
      simp [readFull, h16, h2]
    · simp [readFull, h16]
  · intro hpg hw hq
    simp [handleConnection, hpg, hw, hq]
  · intro hpg hw hq
    simp [handleConnection, hpg, hw, hq]

theorem malformed_input_silent_drop_witness :
    (handleConnection [4, 1, 0] (fun _ => false) (fun _ _ => .fail .other) =
      ⟨none, [], none, false⟩) ∧
    (handleConnection [5, 0, 1, 0] (fun _ => false) (fun _ _ => .fail .other) =
      ⟨none, [], none, false⟩) ∧
    (handleConnection [5] (fun _ => false) (fun _ _ => .fail .other) =
      ⟨none, [], none, false⟩) ∧
    (handleConnection [5, 2, 0] (fun _ => false) (fun _ _ => .fail .other) =
      ⟨none, [], none, false⟩) ∧
    (parseRequest (4 :: [1, 0, 1]) = .silent) ∧
    (parseRequest [5, 1, 0] = .silent) ∧
    (parseRequest (5 :: 1 :: 0 :: 1 :: [1, 2, 3, 4, 0]) = .silent) ∧
    (parseRequest (5 :: 1 :: 0 :: 3 :: 3 :: [97, 98]) = .silent) ∧
    (parseRequest (5 :: 1 :: 0 :: 4 :: [1, 2, 3]) = .silent) ∧
    (handleConnection [5, 1, 0, 5] (fun _ => false) (fun _ _ => .fail .other) =
      ⟨some [5, 0], [], none, false⟩) ∧
    (handleConnection [5, 1, 0, 5, 3, 0, 1, 1, 2, 3, 4, 0, 80]
        (fun _ => false) (fun _ _ => .fail .other) =
      ⟨some [5, 0], [⟨7, none, 0⟩], none, false⟩) :=
  have h := malformed_input_silent_drop 4 2 4 0 3 7
    [1, 0] [1, 0] [5] [0] [1, 0, 1] [5, 1, 0] [1, 2, 3, 4, 0] [97, 98] [1, 2, 3]
    [5, 1, 0, 5] [5] [5, 1, 0, 5, 3, 0, 1, 1, 2, 3, 4, 0, 80]
    [5, 3, 0, 1, 1, 2, 3, 4, 0, 80]
    (fun _ => false) (fun _ _ => .fail .other)
  ⟨h.1 (by decide), h.2.1, h.2.2.1 (by decide), h.2.2.2.1 (by decide),
    h.2.2.2.2.1 (by decide), h.2.2.2.2.2.1 (by decide),
    h.2.2.2.2.2.2.1 (by decide), h.2.2.2.2.2.2.2.1 (by decide) (by decide),
    h.2.2.2.2.2.2.2.2.1 (by decide),
    h.2.2.2.2.2.2.2.2.2.1 (by decide) rfl (by decide),
    h.2.2.2.2.2.2.2.2.2.2 (by decide) rfl (by decide)⟩

end SuperProxy

namespace SuperProxy

/-- C8: `copyAndClose` acquires exactly one pooled buffer and releases it
exactly once on every exit path — with or without an I/O error in the copy,
and for any socket kinds — and the deferred release is the final action. -/
theorem buffer_acquire_release_balanced (dst src : Sock)
    (dstTCP srcTCP ioErr : Bool) :
    ((copyAndClose dst src dstTCP srcTCP ioErr).count CopyEvent.acquire = 1) ∧
    ((copyAndClose dst src dstTCP srcTCP ioErr).count CopyEvent.release = 1) ∧
    ((copyAndClose dst src dstTCP srcTCP ioErr).getLast? =
      some CopyEvent.release) := by
  cases dst <;> cases src <;> cases dstTCP <;> cases srcTCP <;> cases ioErr <;>
    decide

theorem interleave_mem {xs ys zs : List REvent} (h : Interleave xs ys zs) :
    ∀ a ∈ zs, a ∈ xs ∨ a ∈ ys := by
  induction h with
  | nil =>
    intro a ha
    exact absurd ha (by simp)
  | left h ih =>
    intro a ha
    rcases List.mem_cons.mp ha with h1 | h1
    · exact Or.inl (h1 ▸ List.mem_cons_self _ _)
    · rcases ih a h1 with h2 | h2
      · exact Or.inl (List.mem_cons_of_mem _ h2)
      · exact Or.inr h2
  | right h ih =>
    intro a ha
    rcases List.mem_cons.mp ha with h1 | h1
    · exact Or.inr (h1 ▸ List.mem_cons_self _ _)
    · rcases ih a h1 with h2 | h2
      · exact Or.inl h2
      · exact Or.inr (List.mem_cons_of_mem _ h2)

theorem interleave_filter {xs ys zs : List REvent} (p : REvent → Bool)
    (h : Interleave xs ys zs) (hx : ∀ x ∈ xs, p x = true)
    (hy : ∀ y ∈ ys, p y = false) : zs.filter p = xs := by
  induction h with
  | nil => rfl
  | @left x xs ys zs h ih =>
    have hpx : p x = true := hx x (List.mem_cons_self _ _)
    simp only [List.filter_cons, hpx, if_true]
    exact congrArg (x :: ·)
      (ih (fun a ha => hx a (List.mem_cons_of_mem _ ha)) hy)
  | @right y xs ys zs h ih =>
    have hpy : p y = false := hy y (List.mem_cons_self _ _)
    simp only [List.filter_cons, hpy, Bool.false_eq_true, if_false]
    exact ih hx (fun a ha => hy a (List.mem_cons_of_mem _ ha))

theorem interleave_swap {xs ys zs : List REvent} (h : Interleave xs ys zs) :
    Interleave ys xs zs := by
  induction h with
  | nil => exact .nil
  | left h ih => exact .right ih
  | right h ih => exact .left ih

theorem interleave_append (xs ys : List REvent) : Interleave xs ys (xs ++ ys) := by
  induction xs with
  | nil =>
    induction ys with
    | nil => exact .nil
    | cons y t ih => exact .right ih
  | cons x t ih => exact .left ih

/-- C9: every execution of `relay` on two TCP sockets returns (`wg.Wait`)
only after both copy directions have fully completed: the return is the
last event, happens exactly once, and projecting the run on either
direction recovers that direction's complete trace — which ends, after the
copy, with the half-close of its destination's write side and its source's
read side before releasing the buffer. -/
theorem relay_rendezvous_halfclose (e1 e2 : Bool) (t : List REvent)
    (h : RelayRun true true e1 e2 t) :
    t.getLast? = some .ret ∧
    t.count .ret = 1 ∧
    t.filter REvent.isC2R = c2rTrace true true e1 ∧
    t.filter REvent.isR2C = r2cTrace true true e2 ∧
    c2rTrace true true e1 =
      [.c2r .acquire, .c2r (.copyDone e1), .c2r (.closeWrite .remote),
        .c2r (.closeRead .client), .c2r .release] ∧
    r2cTrace true true e2 =
      [.r2c .acquire, .r2c (.copyDone e2), .r2c (.closeWrite .client),
        .r2c (.closeRead .remote), .r2c .release] := by
  obtain ⟨z, hz, ht⟩ := h
  subst ht
  have hc2r : ∀ x ∈ c2rTrace true true e1, REvent.isC2R x = true := by
    intro x hx
    obtain ⟨e, _, rfl⟩ := List.mem_map.mp hx
    rfl
  have hc2rn : ∀ x ∈ c2rTrace true true e1, REvent.isR2C x = false := by
    intro x hx
    obtain ⟨e, _, rfl⟩ := List.mem_map.mp hx
    rfl
  have hr2c : ∀ x ∈ r2cTrace true true e2, REvent.isR2C x = true := by
    intro x hx
    obtain ⟨e, _, rfl⟩ := List.mem_map.mp hx
    rfl
  have hr2cn : ∀ x ∈ r2cTrace true true e2, REvent.isC2R x = false := by
    intro x hx
    obtain ⟨e, _, rfl⟩ := List.mem_map.mp hx
    rfl
  have hretz : REvent.ret ∉ z := by
    intro hmem
    rcases interleave_mem hz _ hmem with hm | hm
    · obtain ⟨e, _, he⟩ := List.mem_map.mp hm
      exact absurd he (by simp)
    · obtain ⟨e, _, he⟩ := List.mem_map.mp hm
      exact absurd he (by simp)
  refine ⟨?_, ?_, ?_, ?_, by cases e1 <;> rfl, by cases e2 <;> rfl⟩
  · rw [List.getLast?_concat]
  · rw [List.count_append]
    rw [List.count_eq_zero.mpr hretz]
    rfl
  · rw [List.filter_append]
    rw [interleave_filter _ hz hc2r hr2cn]
    simp [REvent.isC2R]
  · rw [List.filter_append]
    rw [interleave_filter _ (interleave_swap hz) hr2c hc2rn]
    simp [REvent.isR2C]

theorem relay_rendezvous_halfclose_witness :
    ((c2rTrace true true false ++ r2cTrace true true false) ++
        [REvent.ret]).getLast? = some .ret ∧
    ((c2rTrace true true false ++ r2cTrace true true false) ++
        [REvent.ret]).count .ret = 1 ∧
    ((c2rTrace true true false ++ r2cTrace true true false) ++
        [REvent.ret]).filter REvent.isC2R = c2rTrace true true false ∧
    ((c2rTrace true true false ++ r2cTrace true true false) ++
        [REvent.ret]).filter REvent.isR2C = r2cTrace true true false ∧
    c2rTrace true true false =
      [.c2r .acquire, .c2r (.copyDone false), .c2r (.closeWrite .remote),
        .c2r (.closeRead .client), .c2r .release] ∧
    r2cTrace true true false =
      [.r2c .acquire, .r2c (.copyDone false), .r2c (.closeWrite .client),
        .r2c (.closeRead .remote), .r2c .release] :=
  relay_rendezvous_halfclose false false
    ((c2rTrace true true false ++ r2cTrace true true false) ++ [REvent.ret])
    ⟨c2rTrace true true false ++ r2cTrace true true false,
      interleave_append _ _, rfl⟩

end SuperProxy

